import Mathlib

/-!
Verification of the minigrep-style line-search utility
(src/Rust/example-projects/minigrep/src/lib.rs and src/main.rs).

Strings are modelled as `List Char`; Rust's `str::lines` is modelled by
`rustLines` (split at every newline, strip one trailing carriage return from
every segment that was terminated by a newline, and drop the final segment
when it is empty, which matches Rust's optional final line terminator).
Rust's `str::contains` on a string pattern is contiguous-substring
containment, modelled by the decidable infix relation `<:+:` on `List Char`.
Rust's `str::to_lowercase` is modelled character-wise by `Char.toLower`
(the design explicitly needs no multi-byte case folding).  The process
environment is modelled by an `Option (List Char)` for the one variable the
program reads (`IGNORE_CASE`); the filesystem is modelled by a function from
paths to `Except` results passed to `run`, and `run` returns the lines it
would print instead of printing them.
-/

namespace Minigrep

/-- Strip one trailing carriage return, as Rust's `lines` does for every
line that was terminated by a newline. -/
def stripCR (l : List Char) : List Char :=
  if l.getLast? = some '\r' then l.dropLast else l

/-- Split at every newline character; always returns at least one
(possibly empty) segment. -/
def splitNL : List Char → List (List Char)
  | [] => [[]]
  | c :: cs =>
    if c = '\n' then [] :: splitNL cs
    else
      match splitNL cs with
      | [] => [[c]]
      | l :: ls => (c :: l) :: ls

/-- Model of Rust's `str::lines`: the newline-terminated segments with their
terminators (including a carriage return directly before the newline)
removed; a final empty segment, produced by an empty input or an input
ending in a newline, yields no line. -/
def rustLines (s : List Char) : List (List Char) :=
  let parts := splitNL s
  let front := (parts.dropLast).map stripCR
  match parts.getLast? with
  | none => front
  | some [] => front
  | some l => front ++ [l]

/-- Model of Rust's `str::to_lowercase`, character-wise. -/
def toLowercase (s : List Char) : List Char := s.map Char.toLower

/-- lib.rs lines 83-88: `search` keeps the lines of `contents` that contain
`query` as a contiguous substring. -/
def search (query contents : List Char) : List (List Char) :=
  (rustLines contents).filter (fun line => decide (query <:+: line))

/-- lib.rs lines 91-97: `search_case_insensitive` lower-cases the query
once, and keeps the lines of `contents` whose lower-casing contains the
lowered query; retained lines are the original lines. -/
def search_case_insensitive (query contents : List Char) : List (List Char) :=
  (rustLines contents).filter
    (fun line => decide (toLowercase query <:+: toLowercase line))

/-- lib.rs lines 5-9: the resolved configuration. -/
structure Config where
  query : List Char
  file_path : List Char
  ignore_case : Bool
deriving DecidableEq, Repr

/-- lib.rs lines 19-21: the usage string interpolating the program name. -/
def usageMessage (programName : List Char) : List Char :=
  ("Usage: ").data ++ programName ++
    (" <query> <file_path>\nSet environment variable IGNORE_CASE=1 to do case insesitive searching").data

/-- lib.rs lines 12-44: `Config::build` consumes the argument iterator
(modelled as a list): program name, then query, then file path, erroring
with a message when any of the three is missing; any further tokens are
never requested from the iterator.  `ignoreCaseEnv` models
`env::var("IGNORE_CASE")`: `some v` when the variable is set to text `v`,
`none` when unset; `ignore_case` is its `is_ok()`. -/
def Config.build (args : List (List Char)) (ignoreCaseEnv : Option (List Char)) :
    Except (List Char) Config :=
  match args with
  | [] => Except.error ("unable to find name of program...").data
  | programName :: rest =>
    match rest with
    | [] =>
      Except.error (("query argument not found\n").data ++ usageMessage programName)
    | query :: rest2 =>
      match rest2 with
      | [] =>
        Except.error (("file path argument not found\n").data ++ usageMessage programName)
      | filePath :: _ =>
        Except.ok { query := query, file_path := filePath,
                    ignore_case := ignoreCaseEnv.isSome }

/-- lib.rs lines 48-65: `run` reads the whole file at `config.file_path`
(the filesystem is the function `readFile`), propagating a read error with
`?`; on success it selects the search variant by `ignore_case` and emits
the matching lines (returned here rather than printed). -/
def run {ε : Type} (config : Config) (readFile : List Char → Except ε (List Char)) :
    Except ε (List (List Char)) :=
  match readFile config.file_path with
  | Except.error e => Except.error e
  | Except.ok contents =>
    Except.ok (if config.ignore_case then
                 search_case_insensitive config.query contents
               else
                 search config.query contents)

/-! ### Helper lemmas -/

theorem char_toNat_ofNat (n : Nat) (h : n.isValidChar) : (Char.ofNat n).toNat = n := by
  simp [Char.ofNat, h, Char.toNat, Char.ofNatAux, UInt32.toNat, BitVec.toNat_ofNatLt]

theorem toLower_toNat (c : Char) :
    (Char.toLower c).toNat = if 65 ≤ c.toNat ∧ c.toNat ≤ 90 then c.toNat + 32 else c.toNat := by
  by_cases h : 65 ≤ c.toNat ∧ c.toNat ≤ 90
  · rw [if_pos h]
    show (if c.toNat ≥ 65 ∧ c.toNat ≤ 90 then Char.ofNat (c.toNat + 32) else c).toNat
      = c.toNat + 32
    rw [if_pos ⟨h.1, h.2⟩]
    exact char_toNat_ofNat _ (Or.inl (by omega))
  · rw [if_neg h]
    show (if c.toNat ≥ 65 ∧ c.toNat ≤ 90 then Char.ofNat (c.toNat + 32) else c).toNat
      = c.toNat
    rw [if_neg (fun hc => h ⟨hc.1, hc.2⟩)]

theorem toLower_eq_self (c : Char) (h : ¬(65 ≤ c.toNat ∧ c.toNat ≤ 90)) :
    Char.toLower c = c := by
  show (if c.toNat ≥ 65 ∧ c.toNat ≤ 90 then Char.ofNat (c.toNat + 32) else c) = c
  rw [if_neg (fun hc => h ⟨hc.1, hc.2⟩)]

theorem toLower_idem (c : Char) : Char.toLower (Char.toLower c) = Char.toLower c := by
  by_cases h : 65 ≤ c.toNat ∧ c.toNat ≤ 90
  · have h1 : (Char.toLower c).toNat = c.toNat + 32 := by rw [toLower_toNat, if_pos h]
    exact toLower_eq_self _ (by omega)
  · rw [toLower_eq_self c h, toLower_eq_self c h]

theorem toLowercase_idem : ∀ s, toLowercase (toLowercase s) = toLowercase s
  | [] => rfl
  | c :: cs => by
    show Char.toLower (Char.toLower c) :: toLowercase (toLowercase cs)
      = Char.toLower c :: toLowercase cs
    rw [toLower_idem, toLowercase_idem cs]

theorem build_cons_eq (p q f : List Char) (rest : List (List Char))
    (env : Option (List Char)) :
    Config.build (p :: q :: f :: rest) env = Except.ok ⟨q, f, env.isSome⟩ := rfl

/-! ### Claims -/

/-- Claim C1: with case-sensitive search, a line is returned by
`search query contents` exactly when it is a line of `contents` that
contains `query` as a contiguous substring (strict character-for-character
comparison, which for valid UTF-8 coincides with byte-for-byte). -/
theorem search_exact_containment (query contents line : List Char) :
    line ∈ search query contents ↔ line ∈ rustLines contents ∧ query <:+: line := by
  simp [search, List.mem_filter]

/-- Claim C2: `search_case_insensitive query contents` retains a line iff the
lower-casing of the line contains the lower-casing of the query, and every
retained line is one of the original, untransformed lines of `contents`. -/
theorem search_case_insensitive_exact (query contents line : List Char) :
    line ∈ search_case_insensitive query contents ↔
      line ∈ rustLines contents ∧ toLowercase query <:+: toLowercase line := by
  simp [search_case_insensitive, List.mem_filter]

/-- Claim C3 counterexample: with three payload tokens after the program
token (one more than the expected two), `Config.build` succeeds instead of
failing, silently ignoring the extra token. -/
theorem config_build_extra_args_accepted :
    (Config.build [("prog").data, ("a").data, ("b").data, ("c").data] none).isOk = true := by
  rfl

/-- Claim C3 (amended): `Config.build` succeeds exactly when the argument
sequence holds a program token and at least two payload tokens; with fewer
it fails with a usage-style error message (and, the resolver being pure,
no file is ever read), while extra payload tokens are accepted and
ignored. -/
theorem config_build_isOk_iff_argcount (args : List (List Char))
    (env : Option (List Char)) :
    (Config.build args env).isOk = true ↔ 3 ≤ args.length := by
  match args with
  | [] => simp [Config.build, Except.isOk, Except.toBool]
  | [p] => simp [Config.build, Except.isOk, Except.toBool]
  | [p, q] => simp [Config.build, Except.isOk, Except.toBool]
  | p :: q :: f :: rest =>
    rw [build_cons_eq]
    simp only [Except.isOk, Except.toBool, List.length_cons, true_iff]
    omega

/-- Claim C4 counterexample: `Config.build` accepts an empty query token,
producing a configuration whose `query` field is empty — the claimed
non-emptiness invariant does not hold at construction time. -/
theorem config_build_empty_query_accepted :
    Config.build [("prog").data, [], ("file").data] none
      = Except.ok ⟨[], ("file").data, false⟩ := by
  rfl

/-- Claim C4 (amended): every configuration produced by a successful
`Config.build` has its `query` and `file_path` fields present and equal to
the second and third argument tokens — which may be empty, as no
non-emptiness validation is performed — and, the model being a pure value,
the configuration is never mutated afterwards. -/
theorem config_build_fields (p q f : List Char) (rest : List (List Char))
    (env : Option (List Char)) :
    Config.build (p :: q :: f :: rest) env = Except.ok ⟨q, f, env.isSome⟩ :=
  build_cons_eq p q f rest env

/-- Claim C5: every line retained by the case-sensitive search is also
retained by the case-insensitive search for the same query and contents. -/
theorem search_subset_case_insensitive (query contents line : List Char)
    (h : line ∈ search query contents) :
    line ∈ search_case_insensitive query contents := by
  simp only [search, List.mem_filter, decide_eq_true_eq] at h
  simp only [search_case_insensitive, List.mem_filter, decide_eq_true_eq]
  exact ⟨h.1, List.IsInfix.map Char.toLower h.2⟩

/-- Concrete instantiation of `search_subset_case_insensitive`. -/
theorem search_subset_case_insensitive_witness :
    ("Rust:").data ∈ search (("Rust").data) (("Rust:\nTrust me.").data) ∧
      ("Rust:").data ∈ search_case_insensitive (("Rust").data) (("Rust:\nTrust me.").data) :=
  ⟨by decide,
   search_subset_case_insensitive (("Rust").data) (("Rust:\nTrust me.").data)
     (("Rust:").data) (by decide)⟩

/-- Claim C6: a successfully resolved configuration ignores case exactly
when the `IGNORE_CASE` environment variable is set, whatever its value —
in particular an empty value still triggers case-insensitivity. -/
theorem ignore_case_iff_env_set (args : List (List Char))
    (env : Option (List Char)) (config : Config)
    (h : Config.build args env = Except.ok config) :
    config.ignore_case = env.isSome := by
  match args with
  | [] => simp [Config.build] at h
  | [p] => simp [Config.build, usageMessage] at h
  | [p, q] => simp [Config.build, usageMessage] at h
  | p :: q :: f :: rest =>
    rw [build_cons_eq] at h
    injection h with h1
    rw [← h1]

/-- Concrete instantiation of `ignore_case_iff_env_set`: the environment
variable set to the empty string yields `ignore_case = true`. -/
theorem ignore_case_iff_env_set_witness :
    (Config.build [("prog").data, ("q").data, ("f").data] (some [])).isOk = true ∧
      (⟨("q").data, ("f").data, true⟩ : Config).ignore_case
        = (some ([] : List Char)).isSome :=
  ⟨rfl,
   ignore_case_iff_env_set [("prog").data, ("q").data, ("f").data] (some [])
     ⟨("q").data, ("f").data, true⟩ rfl⟩

/-- Claim C7: both searches emit their results as a sublist of the source
lines (original relative order, no reordering, no sorting, no duplication
beyond the source), and each physical line is emitted exactly as many
times as it occurs among the source lines when it matches — once per
physical occurrence however many times the pattern occurs inside it — and
never when it does not match. -/
theorem search_order_and_multiplicity (query contents line : List Char) :
    (search query contents).Sublist (rustLines contents) ∧
      (search_case_insensitive query contents).Sublist (rustLines contents) ∧
      List.count line (search query contents)
        = (if query <:+: line then List.count line (rustLines contents) else 0) ∧
      List.count line (search_case_insensitive query contents)
        = (if toLowercase query <:+: toLowercase line then
             List.count line (rustLines contents) else 0) := by
  refine ⟨List.filter_sublist _, List.filter_sublist _, ?_, ?_⟩
  · by_cases h : query <:+: line
    · rw [if_pos h]
      simp only [search]
      exact List.count_filter (by simp [h])
    · rw [if_neg h]
      rw [List.count_eq_zero]
      simp [search, List.mem_filter, h]
  · by_cases h : toLowercase query <:+: toLowercase line
    · rw [if_pos h]
      simp only [search_case_insensitive]
      exact List.count_filter (by simp [h])
    · rw [if_neg h]
      rw [List.count_eq_zero]
      simp [search_case_insensitive, List.mem_filter, h]

/-- Claim C8: `run` fails exactly when reading the file at
`config.file_path` fails, the read error is propagated unchanged, and on
failure no output lines are produced (the error result carries none);
on a successful read the output is precisely the selected search's
matching lines. -/
theorem run_read_error_propagation {ε : Type} (config : Config)
    (readFile : List Char → Except ε (List Char)) :
    (∀ e, readFile config.file_path = Except.error e →
        run config readFile = Except.error e) ∧
      (∀ contents, readFile config.file_path = Except.ok contents →
        run config readFile
          = Except.ok (if config.ignore_case then
                         search_case_insensitive config.query contents
                       else
                         search config.query contents)) := by
  constructor
  · intro e h
    unfold run
    rw [h]
  · intro contents h
    unfold run
    rw [h]

/-- Concrete instantiation of `run_read_error_propagation`: a failing read
propagates its error, an ok read yields the search results. -/
theorem run_read_error_propagation_witness :
    run ⟨("q").data, ("f").data, false⟩
        (fun _ => (Except.error 7 : Except Nat (List Char)))
      = Except.error 7 ∧
      run ⟨("st").data, ("f").data, false⟩
          (fun _ => (Except.ok (("Rust").data) : Except Nat (List Char)))
        = Except.ok [("Rust").data] :=
  ⟨(run_read_error_propagation ⟨("q").data, ("f").data, false⟩
      (fun _ => Except.error 7)).1 7 rfl,
   (run_read_error_propagation ⟨("st").data, ("f").data, false⟩
      (fun _ => Except.ok (("Rust").data))).2 (("Rust").data) rfl⟩

/-- Claim C9: the empty query matches every line in both search variants,
and `Config.build` accepts an empty query token without error: the empty
query is rejected nowhere. -/
theorem empty_query_matches_all (contents p f : List Char)
    (env : Option (List Char)) :
    search [] contents = rustLines contents ∧
      search_case_insensitive [] contents = rustLines contents ∧
      (Config.build [p, [], f] env).isOk = true := by
  refine ⟨?_, ?_, rfl⟩
  · simp [search, List.nil_infix]
  · simp [search_case_insensitive, toLowercase, List.nil_infix]

/-- Claim C10: the case-insensitive search depends on the query only
through its lower-casing: lowering the query first yields the identical
result list. -/
theorem search_case_insensitive_lowercase_pattern (query contents : List Char) :
    search_case_insensitive query contents
      = search_case_insensitive (toLowercase query) contents := by
  simp only [search_case_insensitive, toLowercase_idem]

end Minigrep
